import Mathlib

/-!
Verification of the sandbox lifecycle controller and self-healing loop of the
preview-site repository.  The TypeScript sources (src/hooks/useWebContainer.ts
and the application component holding the auto-fix loop) are shallowly embedded
as executable Lean definitions; JavaScript string operations are modelled on
lists of characters for the ASCII inputs the program manipulates.
-/

namespace PreviewSite

/-! ## Character-list models of the JavaScript string operations used by the code -/

/-- Model of the JS test that a string starts with a given needle, on character
lists; first argument is the needle, second the haystack. -/
def charsStartWith : List Char → List Char → Bool
  | [], _ => true
  | _ :: _, [] => false
  | a :: as, b :: bs => a = b && charsStartWith as bs

/-- Model of JS String.prototype.includes: the needle occurs as a contiguous
substring of the haystack. -/
def charsContain : List Char → List Char → Bool
  | n, [] => n.isEmpty
  | n, c :: rest => charsStartWith n (c :: rest) || charsContain n rest

/-- Model of JS String.prototype.endsWith on character lists. -/
def charsEndWith (n hay : List Char) : Bool :=
  charsStartWith n.reverse hay.reverse

/-- String wrapper for charsContain; argument order matches hay.includes(needle). -/
def strIncludes (hay needle : String) : Bool :=
  charsContain needle.data hay.data

/-- String wrapper for charsEndWith; argument order matches hay.endsWith(needle). -/
def strEndsWith (hay needle : String) : Bool :=
  charsEndWith needle.data hay.data

/-- Whitespace characters stripped by JS String.prototype.trim (ASCII range plus
no-break space; the terminal lines the program trims are ASCII). -/
def isJsSpace (c : Char) : Bool :=
  c = ' ' || c = Char.ofNat 9 || c = Char.ofNat 10 || c = Char.ofNat 11 ||
  c = Char.ofNat 12 || c = Char.ofNat 13 || c = Char.ofNat 160

/-- Characters of a string after a JS trim of both ends. -/
def trimChars (l : List Char) : List Char :=
  ((l.dropWhile isJsSpace).reverse.dropWhile isJsSpace).reverse

/-- Length of line.trim() as used by appendOutput. -/
def jsTrimLen (s : String) : Nat := (trimChars s.data).length

/-- Model of arr.slice(-n): the n most recent entries (all of them when fewer). -/
def takeLast (n : Nat) (l : List α) : List α := l.drop (l.length - n)

/-! ## Output buffer (useWebContainer.ts, appendOutput, lines 149-152) -/

/-- Filter condition of appendOutput: the line contains the terminal-control
fragment [0K or [1G, or its trimmed length is below 2. -/
def badLine (line : String) : Bool :=
  strIncludes line "[0K" || strIncludes line "[1G" || decide (jsTrimLen line < 2)

/-- Embedding of appendOutput: drop filtered lines, otherwise keep the 100 most
recent previous lines (prev.slice(-100)) and append the new line. -/
def appendOutput (prev : List String) (line : String) : List String :=
  if badLine line then prev else takeLast 100 prev ++ [line]

/-! ## Boot coalescing (useWebContainer.ts, boot, lines 155-189)

The module-level singletons webcontainerInstance and bootPromise are modelled
as a state record; an engine boot is "issued" when the code reaches the
WebContainer.boot() call.  Since JavaScript runs the async body synchronously
up to that first await, issuing happens inside the boot() call itself;
completion (resolution or rejection of the engine boot) is a separate event. -/

/-- Module-level boot state: the singleton instance (identified by a number),
whether bootPromise is non-null, and how many engine boots were ever issued. -/
structure BootState where
  webcontainerInstance : Option Nat
  bootPromise : Bool
  bootsIssued : Nat
deriving DecidableEq, Repr

/-- Result a boot() caller receives: the existing instance directly, the
already-pending promise, or a freshly created promise. -/
inductive BootRet
  | existing (inst : Nat)
  | pendingResult
  | freshBoot
deriving DecidableEq, Repr

/-- Embedding of the synchronous part of boot(): return the instance if it
exists, else the in-flight promise if one exists, else create the promise and
issue the underlying engine boot. -/
def bootCall (s : BootState) : BootRet × BootState :=
  match s.webcontainerInstance with
  | some i => (BootRet.existing i, s)
  | none =>
    if s.bootPromise then (BootRet.pendingResult, s)
    else (BootRet.freshBoot, { s with bootPromise := true, bootsIssued := s.bootsIssued + 1 })

/-- Events of the boot subsystem: a boot() invocation, the issued engine boot
resolving with an instance, or it rejecting. -/
inductive BootEv
  | call
  | completeOk (inst : Nat)
  | completeFail
deriving DecidableEq, Repr

/-- One step of the boot subsystem.  On success the source stores the instance
and leaves bootPromise set; on failure the catch block clears bootPromise so a
later caller retries (bootPromise = null at line 183). -/
def bootStep (s : BootState) : BootEv → BootState
  | BootEv.call => (bootCall s).2
  | BootEv.completeOk i => { s with webcontainerInstance := some i }
  | BootEv.completeFail => { s with bootPromise := false }

/-- Initial module state: no instance, no pending promise, no boot issued. -/
def bootInit : BootState := ⟨none, false, 0⟩

/-- Run a sequence of boot events from a state. -/
def bootRun (s : BootState) (evs : List BootEv) : BootState := evs.foldl bootStep s

/-! ## Session state, effects, startDevServer and reset (useWebContainer.ts) -/

/-- Externally visible actions the controller performs on the engine or fixer. -/
inductive Effect
  | killProc (p : Nat)
  | spawnInstall
  | spawnDev (p : Nat)
  | fsWrite (path content : String)
deriving DecidableEq, Repr

/-- Session-scoped state of the hook: the React state fields plus processRef. -/
structure Session where
  previewUrl : Option String
  isRunning : Bool
  isInstalling : Bool
  error : Option String
  terminalOutput : List String
  processRef : Option Nat
deriving DecidableEq, Repr

/-- Process-wide singletons of the module (webcontainerInstance, bootPromise,
preWarmPromise, isPreWarmedFlag); reset must not touch these. -/
structure Globals where
  webcontainerInstance : Option Nat
  bootPromise : Bool
  preWarmPromise : Bool
  isPreWarmedFlag : Bool
deriving DecidableEq, Repr

/-- Whole-application state: singletons plus the session. -/
structure AppState where
  globals : Globals
  session : Session
deriving DecidableEq, Repr

/-- Embedding of startDevServer (lines 273-313) in the regime where boot
succeeds and both spawns are granted by the engine.  installExit is the code
the awaited install process exits with; the source awaits installProcess.exit
at line 295 but never inspects the value, so the definition threads it through
unused, exactly as the code does.  devProcId identifies the spawned dev-server
process stored into processRef. -/
def startDevServer (s : Session) (installExit : Int) (devProcId : Nat) :
    Session × List Effect :=
  let killEffs := match s.processRef with
    | some p => [Effect.killProc p]
    | none => []
  let s := { s with previewUrl := none, isInstalling := true }
  let s := { s with
    terminalOutput := appendOutput s.terminalOutput "⚡ Installing project dependencies..." }
  -- install process spawned, its output piped, exit code awaited and discarded
  let _ := installExit
  let s := { s with
    terminalOutput := appendOutput (appendOutput s.terminalOutput "✅ Dependencies ready")
      "🚀 Starting dev server..." }
  let s := { s with processRef := some devProcId }
  (s, killEffs ++ [Effect.spawnInstall, Effect.spawnDev devProcId])

/-- Embedding of reset (lines 325-335): kill the active process if any, null
processRef, then clear the five session fields.  The module singletons are not
mentioned by the source function. -/
def reset (st : AppState) : AppState × List Effect :=
  let killEffs := match st.session.processRef with
    | some p => [Effect.killProc p]
    | none => []
  ({ st with session :=
      { previewUrl := none, isRunning := false, isInstalling := false,
        error := none, terminalOutput := [], processRef := none } },
   killEffs)

/-! ## Error signal extractor (App component, parseError, part lines 51-76)

The four regular expressions of the source and the source-file-path pattern
are embedded as executable matchers on character lists.  Each regex is simple
enough that its backtracking semantics collapses to a deterministic test, as
argued in the doc comment of each matcher. -/

/-- JS word character, the class backslash-w: letters, digits, underscore. -/
def wordChar (c : Char) : Bool := c.isAlphanum || c = '_'

/-- Single-quote character, written by code point to keep literals simple. -/
def sq : Char := Char.ofNat 39

/-- Quote class of the patterns: double or single quote. -/
def quoteChar (c : Char) : Bool := c = '"' || c = sq

/-- Match a string literal at the head of the input, returning the rest. -/
def lit (t : String) (l : List Char) : Option (List Char) :=
  if charsStartWith t.data l then some (l.drop t.data.length) else none

/-- Match a quoted fragment: a quote, one or more non-quote characters, a
quote; returns the rest of the input.  The one-or-more group excludes both
quote characters, so the only run the regex engine can accept is the maximal
one, making this deterministic function equivalent to the regex. -/
def quotedPart (l : List Char) : Option (List Char) :=
  match l with
  | [] => none
  | c :: rest =>
    if quoteChar c then
      let run := rest.takeWhile (fun d => !quoteChar d)
      match rest.drop run.length with
      | d :: rest2 => if !run.isEmpty && quoteChar d then some rest2 else none
      | [] => none
    else none

/-- Match of the Vite unresolved-import pattern at the current position:
Failed to resolve import, a quoted fragment, from, a quoted fragment. -/
def viteResolveAt (l : List Char) : Bool :=
  match lit "Failed to resolve import " l with
  | some r1 =>
    match quotedPart r1 with
    | some r2 =>
      match lit " from " r2 with
      | some r3 => (quotedPart r3).isSome
      | none => false
    | none => false
  | none => false

/-- Match of the module-not-found pattern at the current position. -/
def moduleNotFoundAt (l : List Char) : Bool :=
  match lit "Cannot find module " l with
  | some r => (quotedPart r).isSome
  | none => false

/-- Match of the identifier-not-defined pattern at the current position: a word
character (the last character the one-or-more word group consumes) followed by
the literal tail. -/
def notDefinedAt (l : List Char) : Bool :=
  match l with
  | c :: rest => wordChar c && charsStartWith " is not defined".data rest
  | [] => false

/-- Tail test of the runtime-error-class pattern after the colon: whitespace,
then one or more non-newline characters, then a newline or the end.  A match
exists exactly when the rest contains a non-newline character whose preceding
characters are all whitespace, which holds exactly when some character other
than a newline remains after dropping leading newlines. -/
def p4tail (r : List Char) : Bool :=
  !(r.dropWhile (fun c => c = Char.ofNat 10)).isEmpty

/-- Match of the JavaScript-error-class pattern at the current position:
SyntaxError, TypeError or ReferenceError, a colon, and a message tail. -/
def runtimeClassAt (l : List Char) : Bool :=
  match lit "SyntaxError:" l with
  | some r => p4tail r
  | none =>
    match lit "TypeError:" l with
    | some r => p4tail r
    | none =>
      match lit "ReferenceError:" l with
      | some r => p4tail r
      | none => false

/-- Regex test semantics: the position matcher succeeds at some position. -/
def existsAt (p : List Char → Bool) : List Char → Bool
  | [] => p []
  | c :: rest => p (c :: rest) || existsAt p rest

/-- Match of the project-source-path pattern at the current position: src/, one
or more word, hyphen or slash characters, then .ts and an optional x.  As the
dot is outside the repeated class, only the maximal run can be continued, so
the greedy regex semantics is this deterministic function; the matched text is
returned. -/
def srcPathAt (l : List Char) : Option (List Char) :=
  match lit "src/" l with
  | some r =>
    let run := r.takeWhile (fun c => wordChar c || c = '-' || c = '/')
    if run.isEmpty then none
    else
      match lit ".ts" (r.drop run.length) with
      | some r2 =>
        match r2 with
        | 'x' :: _ => some ("src/".data ++ run ++ ".tsx".data)
        | _ => some ("src/".data ++ run ++ ".ts".data)
      | none => none
  | none => none

/-- Leftmost match of the project-source-path pattern, the semantics of
text.match with an unanchored, non-global regex. -/
def findSrcPath : List Char → Option (List Char)
  | [] => none
  | c :: rest =>
    match srcPathAt (c :: rest) with
    | some m => some m
    | none => findSrcPath rest

/-- Candidate produced by the extractor: file path and error text. -/
structure ErrorInfo where
  file : String
  error : String
deriving DecidableEq, Repr

/-- The four pattern tests of parseError in source order. -/
def patternTests : List (List Char → Bool) :=
  [existsAt viteResolveAt, existsAt moduleNotFoundAt,
   existsAt notDefinedAt, existsAt runtimeClassAt]

/-- Loop body of parseError: for each pattern, if it tests true against the
text, look for a source-file path; return the candidate if one is found, and
otherwise continue with the remaining patterns. -/
def parseErrorLoop (text : List Char) : List (List Char → Bool) → Option ErrorInfo
  | [] => none
  | p :: ps =>
    if p text then
      match findSrcPath text with
      | some f => some ⟨String.mk f, String.mk (takeLast 500 text)⟩
      | none => parseErrorLoop text ps
    else parseErrorLoop text ps

/-- The text parseError scans: the 60 most recent lines joined by newlines. -/
def recentText (output : List String) : List Char :=
  (String.intercalate "\n" (takeLast 60 output)).data

/-- Embedding of parseError: scan the recent text with the four patterns and
the path pattern, producing a candidate or nothing. -/
def parseError (output : List String) : Option ErrorInfo :=
  parseErrorLoop (recentText output) patternTests

/-! ## File tree (fileUtils.ts FileNode, zipUtils.ts flattenFiles)

A FileNode carries name, path, kind, optional content and children.  The
source leaves children undefined for files; an absent children array and an
empty one behave identically in every traversal the code performs, so children
is modelled as a plain list. -/

/-- Kind of a tree node, the source field type: file or directory. -/
inductive FileKind
  | file
  | directory
deriving DecidableEq, Repr

/-- Node of the project file tree. -/
inductive FileNode
  | node (name path : String) (kind : FileKind) (content : Option String)
      (children : List FileNode)

/-- Name of a node. -/
def FileNode.name : FileNode → String
  | node n _ _ _ _ => n

/-- Path of a node. -/
def FileNode.path : FileNode → String
  | node _ p _ _ _ => p

/-- Kind of a node. -/
def FileNode.kind : FileNode → FileKind
  | node _ _ k _ _ => k

/-- Content of a node. -/
def FileNode.content : FileNode → Option String
  | node _ _ _ c _ => c

/-- Children of a node. -/
def FileNode.children : FileNode → List FileNode
  | node _ _ _ _ ch => ch

mutual
/-- Contribution of one node to flattenFiles: the node itself when it is a
file, followed by the flattening of its children. -/
def flattenOne : FileNode → List FileNode
  | FileNode.node nm p k c ch =>
    (if k = FileKind.file then [FileNode.node nm p k c ch] else []) ++ flattenMany ch

/-- Flattening of a list of sibling nodes in order. -/
def flattenMany : List FileNode → List FileNode
  | [] => []
  | n :: rest => flattenOne n ++ flattenMany rest
end

/-- Embedding of flattenFiles (zipUtils.ts lines 154-170): pre-order list of
all file nodes of the tree. -/
def flattenFiles (files : List FileNode) : List FileNode := flattenMany files

mutual
/-- Embedding of the updateFileInTree node case: a node whose path equals the
target path gets its content replaced and is otherwise returned with its
children rewritten. -/
def updNode (targetPath fixedCode : String) : FileNode → FileNode
  | FileNode.node nm p k c ch =>
    if p = targetPath then FileNode.node nm p k (some fixedCode) ch
    else FileNode.node nm p k c (updMany targetPath fixedCode ch)

/-- updateFileInTree over a list of siblings. -/
def updMany (targetPath fixedCode : String) : List FileNode → List FileNode
  | [] => []
  | n :: rest => updNode targetPath fixedCode n :: updMany targetPath fixedCode rest
end

/-- Embedding of updateFileInTree (App component, part lines 132-142). -/
def updateFileInTree (targetPath fixedCode : String) (nodes : List FileNode) :
    List FileNode := updMany targetPath fixedCode nodes

/-! ## Target file resolution inside fixCodeError (App component, part lines 92-105) -/

/-- Model of JS str.replace of the first occurrence of a needle by the empty
string; the haystack is unchanged when the needle does not occur. -/
def removeFirstOcc : List Char → List Char → List Char
  | _, [] => []
  | needle, c :: rest =>
    if charsStartWith needle (c :: rest) then (c :: rest).drop needle.length
    else c :: removeFirstOcc needle rest

/-- Model of JS str.split(sep): maximal separator-free segments, with empty
segments kept, never returning an empty list. -/
def splitOnChar (sep : Char) : List Char → List (List Char)
  | [] => [[]]
  | c :: rest =>
    let r := splitOnChar sep rest
    if c = sep then [] :: r
    else
      match r with
      | h :: t => (c :: h) :: t
      | [] => [[c]]

/-- Model of errorFile.split slash then pop: the final path segment. -/
def lastSegment (l : List Char) : List Char :=
  (splitOnChar '/' l).getLastD []

/-- JS truthiness of the optional content field: both an absent content and an
empty string are falsy. -/
def jsContentTruthy : Option String → Bool
  | some s => !(s == "")
  | none => false

/-- Truthiness of target.content through the optional-chaining access. -/
def optContentTruthy : Option FileNode → Bool
  | some n => jsContentTruthy n.content
  | none => false

/-- Disjunctive predicate of the first resolution pass: path equals the
candidate, path ends with the candidate, or path contains the candidate with
its first src/ occurrence removed. -/
def matchesAny (f : FileNode) (errorFile : String) : Bool :=
  f.path == errorFile || strEndsWith f.path errorFile ||
  strIncludes f.path (String.mk (removeFirstOcc "src/".data errorFile.data))

/-- Embedding of the target-file resolution of fixCodeError: one find over the
flattened files with the three path criteria as a disjunction; if the result
has no truthy content, a second find by bare file name (skipped when the final
path segment is empty); the attempt proceeds only when the resolved node has
truthy content. -/
def findTarget (allFiles : List FileNode) (errorFile : String) : Option FileNode :=
  let first := allFiles.find? (fun f => matchesAny f errorFile)
  let second :=
    if optContentTruthy first then first
    else
      let fileName := lastSegment errorFile.data
      if fileName.isEmpty then first
      else allFiles.find? (fun f => f.name == String.mk fileName)
  if optContentTruthy second then second else none

/-! ## Self-healing fix attempt (App component, fixCodeError, part lines 79-157) -/

/-- Outcome of the fixer round trip as seen by fixCodeError: the fetch threw
or returned not-ok, or a JSON body with a fixedCode string was obtained. -/
inductive FixerResponse
  | httpFail
  | ok (fixedCode : String)
deriving DecidableEq, Repr

/-- Session-scoped state read and written by fixCodeError: the fixingRef flag
(isFixing mirrors it), the attempt counter, the last dedup key, the file tree
and the fix log and counter. -/
structure FixState where
  fixing : Bool
  attempts : Nat
  lastError : String
  files : List FileNode
  fixCount : Nat
  fixLog : List String

/-- Result of one fixCodeError invocation: the new state, whether the fixer
request was issued, the hot-patch writes performed, and the returned boolean. -/
structure FixResult where
  state : FixState
  calledFixer : Bool
  writes : List (String × String)
  returned : Bool

/-- Dedup key of a candidate: file path, a colon, and the first 50 characters
of the error text. -/
def errKey (errorFile errorText : String) : String :=
  errorFile ++ ":" ++ String.mk (errorText.data.take 50)

/-- Attempt log entry written before the fixer request. -/
def fixingMsg (path : String) : String := "🔧 Fixing: " ++ path

/-- Attempt log entry for an unresolvable candidate path. -/
def notFoundMsg (errorFile : String) : String := "❌ File not found: " ++ errorFile

/-- Attempt log entry of the catch block. -/
def fixFailMsg : String := "❌ Error: fix failed"

/-- Attempt log entry of a successfully applied fix. -/
def fixedMsg (path : String) : String := "✅ Fixed: " ++ path

/-- Embedding of fixCodeError.  Guards in source order: the in-flight flag,
then the dedup key against the last triggered key; past the guards the key is
recorded, the flag raised and the counter incremented (the function contains
no budget check).  The target file is resolved; the fixer is then invoked, and
its response either applied (hot-patch write plus tree update plus success log
entry, only when the fixed code is truthy and differs from the current
content) or dropped.  The finally block lowers the flag on every path. -/
def fixCodeError (s : FixState) (errorFile errorText : String)
    (resp : FixerResponse) : FixResult :=
  if s.fixing then ⟨s, false, [], false⟩
  else
    let errorKey := errKey errorFile errorText
    if errorKey == s.lastError then ⟨s, false, [], false⟩
    else
      let s1 : FixState :=
        { s with lastError := errorKey, fixing := true, attempts := s.attempts + 1 }
      match findTarget (flattenFiles s1.files) errorFile with
      | none =>
        let sEnd : FixState :=
          { s1 with fixLog := s1.fixLog ++ [notFoundMsg errorFile], fixing := false }
        ⟨sEnd, false, [], false⟩
      | some t =>
        let s2 : FixState := { s1 with fixLog := s1.fixLog ++ [fixingMsg t.path] }
        match resp with
        | FixerResponse.httpFail =>
          let sEnd : FixState :=
            { s2 with fixLog := s2.fixLog ++ [fixFailMsg], fixing := false }
          ⟨sEnd, true, [], false⟩
        | FixerResponse.ok fixedCode =>
          if !(fixedCode == "") && !(some fixedCode == t.content) then
            let sEnd : FixState :=
              { s2 with files := updateFileInTree t.path fixedCode s2.files,
                        fixCount := s2.fixCount + 1,
                        fixLog := s2.fixLog ++ [fixedMsg t.path], fixing := false }
            ⟨sEnd, true, [(t.path, fixedCode)], true⟩
          else
            let sEnd : FixState := { s2 with fixing := false }
            ⟨sEnd, true, [], false⟩

/-! ## Trigger paths of the self-healing loop (App component, part lines 160-206)

The runtime-error listener checks its guards (running, in-flight flag, attempt
budget) at message-arrival time and then schedules the fix call through a
setTimeout that is never cleared; fixCodeError itself contains no budget
check.  The model therefore keeps a FIFO list of scheduled invocations; a fire
event is one scheduled timeout callback running, with its fix attempt
completing before the next event — a scheduling the single-threaded event loop
of the source permits (the previous fetch resolves before the next timer
fires).  The stack-trace parser lives in src/utils/errorReporter.ts, which is
not among the provided sources; its result is therefore passed into the event
as an already-parsed optional file path. -/

/-- The attempt budget MAX_FIX_ATTEMPTS of the App component (part line 13). -/
def MAX_FIX_ATTEMPTS : Nat := 15

/-- Log entry of the runtime-error listener when a file path was parsed. -/
def runtimeErrMsg (fp : String) : String := "🔴 Runtime Error in " ++ fp

/-- Log entry of the runtime-error listener when no file path was parsed. -/
def noPathMsg : String := "⚠️ Runtime error detected but file path not found"

/-- Loop state: the fix state, the isRunning flag the guards read, and the
scheduled-but-not-yet-fired fix invocations in timer order. -/
structure LoopState where
  fix : FixState
  isRunning : Bool
  pending : List (String × String)

/-- Embedding of the runtime-error message handler: drop unless running, not
fixing and under budget; with a parsed file path, log and schedule the delayed
fixCodeError invocation; without one, log a warning.  Modelled from the spec
for the missing errorReporter.ts parser: the event carries the optional file
path that parseStackTrace returned. -/
def handleRuntimeError (st : LoopState) (parsedPath : Option String)
    (errorContext : String) : LoopState :=
  if !st.isRunning || st.fix.fixing then st
  else if MAX_FIX_ATTEMPTS ≤ st.fix.attempts then st
  else
    match parsedPath with
    | some fp =>
      { st with
        fix := { st.fix with fixLog := st.fix.fixLog ++ [runtimeErrMsg fp] },
        pending := st.pending ++ [(fp, errorContext)] }
    | none =>
      { st with fix := { st.fix with fixLog := st.fix.fixLog ++ [noPathMsg] } }

/-- A scheduled timeout fires: the oldest pending invocation runs fixCodeError
to completion with the given fixer response.  Returns whether the fixer
request was issued by this attempt. -/
def fireStep (st : LoopState) (resp : FixerResponse) : LoopState × Bool :=
  match st.pending with
  | [] => (st, false)
  | (fp, ctx) :: rest =>
    let r := fixCodeError st.fix fp ctx resp
    ({ st with fix := r.state, pending := rest }, r.calledFixer)

/-- Events of the loop model: a runtime-error message arriving, or a scheduled
timeout firing with the fixer responding as given. -/
inductive LoopEv
  | runtimeErr (parsedPath : Option String) (errorContext : String)
  | fire (resp : FixerResponse)

/-- One loop step, also counting issued fixer requests. -/
def loopStep (acc : LoopState × Nat) (e : LoopEv) : LoopState × Nat :=
  match e with
  | LoopEv.runtimeErr fp ctx => (handleRuntimeError acc.1 fp ctx, acc.2)
  | LoopEv.fire resp =>
    let (st, called) := fireStep acc.1 resp
    (st, acc.2 + (if called then 1 else 0))

/-- Run a sequence of loop events, returning the final state and the number of
fixer requests issued. -/
def runLoop (st : LoopState) (evs : List LoopEv) : LoopState × Nat :=
  evs.foldl loopStep (st, 0)

/-! ## Concrete fixtures used by counterexamples and witnesses -/

/-- A flat file node with content. -/
def mkFile (nm p c : String) : FileNode :=
  FileNode.node nm p FileKind.file (some c) []

/-- Demo node matching only the containment criterion for src/App.tsx. -/
def demoA : FileNode := mkFile "App.tsx.bak" "old/App.tsx.bak" "OLD"

/-- Demo node whose path equals the candidate path src/App.tsx. -/
def demoB : FileNode := mkFile "App.tsx" "src/App.tsx" "GOOD"

/-- Demo tree for the resolution counterexample: the containment-only match
first, the exact match second. -/
def demoFiles : List FileNode := [demoA, demoB]

/-- Sixteen distinct project files p0 … p15, each with content c. -/
def demo16 : List FileNode :=
  (List.range 16).map (fun i => mkFile ("p" ++ toString i) ("p" ++ toString i) "c")

/-- Initial loop state for the budget overflow run: running, idle fixer, fresh
counters, the sixteen-file tree. -/
def overflowInit : LoopState :=
  { fix := { fixing := false, attempts := 0, lastError := "", files := demo16,
             fixCount := 0, fixLog := [] },
    isRunning := true, pending := [] }

/-- Sixteen runtime-error messages with distinct files arriving inside the
timer window, followed by the sixteen scheduled invocations firing. -/
def overflowEvents : List LoopEv :=
  ((List.range 16).map (fun i =>
    LoopEv.runtimeErr (some ("p" ++ toString i)) ("boom" ++ toString i))) ++
  ((List.range 16).map (fun _ => LoopEv.fire (FixerResponse.ok "FIXED")))

/-- The single-quote Vite sample line of the spec: Failed to resolve import
./Foo from src/App.tsx, with both fragments single-quoted. -/
def viteSample : String :=
  String.mk ("Failed to resolve import ".data ++ sq :: "./Foo".data ++
    sq :: " from ".data ++ sq :: "src/App.tsx".data ++ [sq])

/-- One-file project node used by concrete witnesses. -/
def demoNode : FileNode := mkFile "A" "pA" "c"

/-- Idle fix state over the one-file project, used by concrete witnesses. -/
def demoFixState : FixState :=
  { fixing := false, attempts := 0, lastError := "", files := [demoNode],
    fixCount := 0, fixLog := [] }

/-! ## Helper lemmas -/

/-- Every line a non-filtered append adds to the buffer comes from the old
buffer or is the appended line, and the append never adds a filtered line. -/
theorem mem_appendOutput {prev : List String} {line l : String}
    (h : l ∈ appendOutput prev line) : l ∈ prev ∨ (l = line ∧ badLine line = false) := by
  unfold appendOutput at h
  by_cases hb : badLine line = true
  · simp [hb] at h
    exact Or.inl h
  · simp [hb] at h
    rcases h with h | h
    · exact Or.inl (List.drop_subset _ prev h)
    · exact Or.inr ⟨h, by simpa using hb⟩

/-- Buffers built by folding appendOutput over any inputs contain only lines
that pass the filter, provided the starting buffer does. -/
theorem foldl_appendOutput_good (inputs : List String) :
    ∀ (init : List String), (∀ l ∈ init, badLine l = false) →
      ∀ l ∈ inputs.foldl appendOutput init, badLine l = false := by
  induction inputs with
  | nil => intro init hinit l hl; exact hinit l hl
  | cons i rest ih =>
    intro init hinit l hl
    refine ih (appendOutput init i) ?_ l hl
    intro m hm
    rcases mem_appendOutput hm with h | ⟨rfl, hgood⟩
    · exact hinit m h
    · exact hgood

/-- A find over a list split around the first element satisfying the predicate
returns that element. -/
theorem find?_of_split {α} (p : α → Bool) (pre : List α) (t : α) (post : List α)
    (hpre : ∀ u ∈ pre, p u = false) (ht : p t = true) :
    (pre ++ t :: post).find? p = some t := by
  induction pre with
  | nil => simpa using List.find?_cons_of_pos post ht
  | cons a as ih =>
    have ha : ¬ p a := by simpa using hpre a (by simp)
    simpa [List.find?_cons_of_neg _ ha] using
      ih (fun u hu => hpre u (by simp [hu]))

/-! ## C10 — output buffer filtering -/

/-- C10: a line containing the fragment [0K or [1G, or with trimmed length
below 2, is dropped by appendOutput, and every buffer reachable from the empty
buffer by appends contains only lines passing the filter — such lines never
appear in the buffer. -/
theorem claim_c10_append_filters :
    (∀ prev line, badLine line = true → appendOutput prev line = prev) ∧
    (∀ (inputs : List String) (l : String),
      l ∈ inputs.foldl appendOutput [] → badLine l = false) := by
  constructor
  · intro prev line hb
    simp [appendOutput, hb]
  · intro inputs l hl
    exact foldl_appendOutput_good inputs [] (by simp) l hl

/-- Witness for C10: applies the theorem at a concrete filtered line and a
concrete surviving buffer line. -/
theorem claim_c10_append_filters_witness :
    appendOutput ["hello"] "x[0K" = ["hello"] ∧ badLine "hi" = false :=
  ⟨claim_c10_append_filters.1 ["hello"] "x[0K" (by decide),
   claim_c10_append_filters.2 ["hi"] "hi" (by decide)⟩

/-! ## C9 — output buffer cap (corrected: the cap is 101, not 100) -/

set_option maxRecDepth 4000 in
/-- C9 counterexample: after appending 101 acceptable lines to the empty
buffer the buffer holds 101 lines, so the claimed bound of at most 100 lines
after every append is false. -/
theorem claim_c9_counterexample :
    100 < ((List.replicate 101 "ok!").foldl appendOutput []).length := by decide

/-- C9 amended: the buffer is bounded by 101 lines (up to the 100 most recent
previous lines are retained and the new line appended); a non-filtered append
keeps the retained lines in arrival order as a suffix of the old buffer, so
eviction removes only the oldest entries; a filtered append leaves the buffer
unchanged. -/
theorem claim_c9_cap (prev : List String) (line : String) (h : prev.length ≤ 101) :
    (appendOutput prev line).length ≤ 101 ∧
    List.IsSuffix (takeLast 100 prev) prev ∧
    (badLine line = false → appendOutput prev line = takeLast 100 prev ++ [line]) ∧
    (badLine line = true → appendOutput prev line = prev) := by
  refine ⟨?_, List.drop_suffix _ prev, ?_, ?_⟩
  · unfold appendOutput takeLast
    by_cases hb : badLine line = true
    · simpa [hb] using h
    · simp [hb]
      omega
  · intro hb; simp [appendOutput, hb]
  · intro hb; simp [appendOutput, hb]

/-- Witness for C9: the amended bound applied to a concrete buffer. -/
theorem claim_c9_cap_witness : (appendOutput ["aa"] "bb").length ≤ 101 :=
  (claim_c9_cap ["aa"] "bb" (by decide)).1

/-! ## C8 — reset clears the session and leaves the singletons alone -/

/-- C8: from any prior state, reset kills the active process handle if one
exists (and only then), and leaves previewUrl, running, installing and error
cleared, the output buffer empty, the process handle dropped, and the
process-wide singletons untouched. -/
theorem claim_c8_reset (st : AppState) :
    (reset st).1.session =
      { previewUrl := none, isRunning := false, isInstalling := false,
        error := none, terminalOutput := [], processRef := none } ∧
    (reset st).1.globals = st.globals ∧
    (reset st).2 = (match st.session.processRef with
      | some p => [Effect.killProc p]
      | none => []) := by
  cases h : st.session.processRef <;> simp [reset, h]

/-! ## C4 — startDevServer ignores the install exit code (corrected) -/

/-- C4 counterexample: with the install process exiting with code 1, the run
does not stop: the dev-server process is spawned anyway and no install failure
is recorded in the error field. -/
theorem claim_c4_counterexample :
    Effect.spawnDev 7 ∈ (startDevServer ⟨none, false, false, none, [], none⟩ 1 7).2 ∧
    (startDevServer ⟨none, false, false, none, [], none⟩ 1 7).1.error = none := by
  decide

/-- C4 amended: startDevServer awaits the install exit but never inspects it —
its whole result is independent of the exit code, the dev-server process is
always spawned and stored as the active handle, and the error field is left
unchanged rather than reporting an install failure. -/
theorem claim_c4_ignores_install_exit (s : Session) (e₁ e₂ : Int) (d : Nat) :
    startDevServer s e₁ d = startDevServer s e₂ d ∧
    Effect.spawnDev d ∈ (startDevServer s e₁ d).2 ∧
    (startDevServer s e₁ d).1.error = s.error ∧
    (startDevServer s e₁ d).1.processRef = some d := by
  cases h : s.processRef <;> simp [startDevServer, h]

/-! ## C1 — boot coalescing (corrected: a failed boot permits a second one) -/

/-- C1 counterexample: a boot call whose engine boot fails followed by a
second boot call issues two underlying engine boots, refuting the claim that
at most one boot is ever issued over every sequence of boot calls. -/
theorem claim_c1_counterexample :
    (bootRun bootInit [BootEv.call, BootEv.completeFail, BootEv.call]).bootsIssued
      = 2 := by decide

/-- Steps other than a boot failure preserve the accounting invariant tying
the number of issued boots to the in-flight marker. -/
theorem bootStep_inv {s : BootState} {e : BootEv} (he : e ≠ BootEv.completeFail)
    (hs : s.bootsIssued = (if s.bootPromise then 1 else 0)) :
    (bootStep s e).bootsIssued = (if (bootStep s e).bootPromise then 1 else 0) := by
  cases e with
  | call =>
    unfold bootStep bootCall
    cases hi : s.webcontainerInstance with
    | some i => simpa using hs
    | none =>
      by_cases hp : s.bootPromise
      · simpa [hp] using hs
      · simp [hp] at hs ⊢
        exact hs
  | completeOk i => simpa using hs
  | completeFail => exact absurd rfl he

/-- Runs without a boot failure preserve the accounting invariant. -/
theorem bootRun_inv (evs : List BootEv) :
    ∀ s : BootState, BootEv.completeFail ∉ evs →
      s.bootsIssued = (if s.bootPromise then 1 else 0) →
      (bootRun s evs).bootsIssued = (if (bootRun s evs).bootPromise then 1 else 0) := by
  induction evs with
  | nil => intro s _ hs; exact hs
  | cons e rest ih =>
    intro s hmem hs
    have hne : e ≠ BootEv.completeFail := fun h => hmem (by simp [h])
    have hrest : BootEv.completeFail ∉ rest := fun h => hmem (by simp [h])
    exact ih (bootStep s e) hrest (bootStep_inv hne hs)

/-- C1 amended: as long as no issued engine boot fails, at most one underlying
boot is ever issued across any sequence of boot events; a call finding an
existing instance returns it unchanged; and a call finding a boot in flight
coalesces onto it without issuing a new boot.  After a failure the in-flight
marker is cleared, so a later call may issue a fresh boot (the counterexample
exercises exactly this). -/
theorem claim_c1_boot_coalescing :
    (∀ evs : List BootEv, BootEv.completeFail ∉ evs →
      (bootRun bootInit evs).bootsIssued ≤ 1) ∧
    (∀ (s : BootState) (i : Nat), s.webcontainerInstance = some i →
      bootCall s = (BootRet.existing i, s)) ∧
    (∀ s : BootState, s.webcontainerInstance = none → s.bootPromise = true →
      bootCall s = (BootRet.pendingResult, s)) := by
  refine ⟨?_, ?_, ?_⟩
  · intro evs hmem
    have h := bootRun_inv evs bootInit hmem (by simp [bootInit])
    by_cases hp : (bootRun bootInit evs).bootPromise <;> simp [hp] at h <;> omega
  · intro s i hi
    simp [bootCall, hi]
  · intro s hi hp
    simp [bootCall, hi, hp]

/-- Witness for C1: the amended theorem applied to a concrete failure-free
event sequence and to concrete states. -/
theorem claim_c1_boot_coalescing_witness :
    (bootRun bootInit [BootEv.call, BootEv.completeOk 5, BootEv.call]).bootsIssued ≤ 1 ∧
    bootCall ⟨some 5, true, 1⟩ = (BootRet.existing 5, ⟨some 5, true, 1⟩) ∧
    bootCall ⟨none, true, 1⟩ = (BootRet.pendingResult, ⟨none, true, 1⟩) :=
  ⟨claim_c1_boot_coalescing.1 [BootEv.call, BootEv.completeOk 5, BootEv.call] (by decide),
   claim_c1_boot_coalescing.2.1 ⟨some 5, true, 1⟩ 5 rfl,
   claim_c1_boot_coalescing.2.2 ⟨none, true, 1⟩ rfl rfl⟩

/-! ## C6 — extractor needs both a signature and a path -/

/-- Without a source path in the text the parseError loop yields nothing, no
matter which patterns matched. -/
theorem parseErrorLoop_none (text : List Char) (ps : List (List Char → Bool))
    (h : findSrcPath text = none) : parseErrorLoop text ps = none := by
  induction ps with
  | nil => rfl
  | cons p rest ih =>
    unfold parseErrorLoop
    by_cases hp : p text
    · rw [if_pos hp, h]
      exact ih
    · rw [if_neg hp]
      exact ih

/-- A candidate produced by the parseError loop carries the leftmost source
path of the text, and some pattern of the list matched the text. -/
theorem parseErrorLoop_some (text : List Char) (ps : List (List Char → Bool))
    (c : ErrorInfo) (h : parseErrorLoop text ps = some c) :
    findSrcPath text = some c.file.data ∧ ∃ p ∈ ps, p text = true := by
  induction ps with
  | nil => simp [parseErrorLoop] at h
  | cons p rest ih =>
    unfold parseErrorLoop at h
    by_cases hp : p text
    · rw [if_pos hp] at h
      split at h
      next f hf =>
        cases h
        exact ⟨by rw [hf], p, by simp, hp⟩
      next hf =>
        rcases ih h with ⟨hpath, q, hq, hqt⟩
        exact ⟨hpath, q, by simp [hq], hqt⟩
    · rw [if_neg hp] at h
      rcases ih h with ⟨hpath, q, hq, hqt⟩
      exact ⟨hpath, q, by simp [hq], hqt⟩

/-- C6: parseError produces a candidate only when one of the four error
signatures matches the recent text and a project-source path is found in it
(the candidate file being that path); with no path it returns nothing even
when a signature matched; and on the concrete Vite unresolved-import line the
candidate's file path is src/App.tsx. -/
theorem claim_c6_extractor :
    (∀ (output : List String) (c : ErrorInfo), parseError output = some c →
      findSrcPath (recentText output) = some c.file.data ∧
      ∃ p ∈ patternTests, p (recentText output) = true) ∧
    (∀ output : List String, findSrcPath (recentText output) = none →
      parseError output = none) ∧
    (parseError [viteSample]).map ErrorInfo.file = some "src/App.tsx" := by
  refine ⟨?_, ?_, ?_⟩
  · intro output c h
    exact parseErrorLoop_some (recentText output) patternTests c h
  · intro output h
    exact parseErrorLoop_none (recentText output) patternTests h
  · decide

/-- Witness for C6: the theorem applied to the concrete Vite sample output and
its concrete candidate. -/
theorem claim_c6_extractor_witness :
    findSrcPath (recentText [viteSample]) = some "src/App.tsx".data ∧
    ∃ p ∈ patternTests, p (recentText [viteSample]) = true :=
  claim_c6_extractor.1 [viteSample] ⟨"src/App.tsx", viteSample⟩ (by decide)

/-! ## C7 — target resolution is one disjunctive pass, not a priority order -/

/-- C7 counterexample: the tree holds a node whose path is exactly the
candidate path src/App.tsx, yet resolution returns the earlier node, which
matches neither the equality nor the suffix criterion — only the containment
criterion.  List order, not criterion priority, decided. -/
theorem claim_c7_counterexample :
    demoFiles = [demoA, demoB] ∧
    demoB.path = "src/App.tsx" ∧
    jsContentTruthy demoB.content = true ∧
    (findTarget demoFiles "src/App.tsx").map FileNode.path = some demoA.path ∧
    demoA.path ≠ "src/App.tsx" ∧
    strEndsWith demoA.path "src/App.tsx" = false := by
  refine ⟨rfl, rfl, by decide, by decide, by decide, by decide⟩

/-- An option gated by the truthy-content check yields only nodes with truthy
content. -/
theorem optContent_guard (o : Option FileNode) (t : FileNode)
    (h : (if optContentTruthy o then o else none) = some t) :
    jsContentTruthy t.content = true := by
  by_cases hc : optContentTruthy o = true
  · rw [if_pos hc] at h
    rw [h] at hc
    simpa [optContentTruthy] using hc
  · rw [if_neg hc] at h
    exact absurd h (by simp)

/-- C7 amended, part of the resolution contract: any resolved file has truthy
content. -/
theorem findTarget_content (fs : List FileNode) (ef : String) (t : FileNode)
    (h : findTarget fs ef = some t) : jsContentTruthy t.content = true := by
  unfold findTarget at h
  exact optContent_guard _ t h

/-- C7 amended: the first pass returns the first file in list order satisfying
the disjunction of the three path criteria; when that file has truthy content
it is the resolution result, whatever criterion it matched and whatever later
files match. -/
theorem findTarget_first_pass (pre : List FileNode) (t : FileNode)
    (post : List FileNode) (ef : String)
    (hpre : ∀ u ∈ pre, matchesAny u ef = false)
    (ht : matchesAny t ef = true)
    (hc : jsContentTruthy t.content = true) :
    findTarget (pre ++ t :: post) ef = some t := by
  have hfind : (pre ++ t :: post).find? (fun f => matchesAny f ef) = some t :=
    find?_of_split _ pre t post hpre ht
  simp only [findTarget, hfind, optContentTruthy, hc, if_pos]

/-- C7 amended, fallback: only when no file satisfies any path criterion (or
the found one lacks content) is the bare file-name match consulted, again
first-in-order. -/
theorem findTarget_name_fallback (pre : List FileNode) (t : FileNode)
    (post : List FileNode) (ef : String)
    (hnone : ∀ u ∈ pre ++ t :: post, matchesAny u ef = false)
    (hseg : (lastSegment ef.data).isEmpty = false)
    (hpre : ∀ u ∈ pre, (u.name == String.mk (lastSegment ef.data)) = false)
    (ht : (t.name == String.mk (lastSegment ef.data)) = true)
    (hc : jsContentTruthy t.content = true) :
    findTarget (pre ++ t :: post) ef = some t := by
  have hfind : (pre ++ t :: post).find? (fun f => matchesAny f ef) = none :=
    List.find?_eq_none.mpr (fun x hx => by simp [hnone x hx])
  have hname : (pre ++ t :: post).find?
      (fun f => f.name == String.mk (lastSegment ef.data)) = some t :=
    find?_of_split _ pre t post hpre ht
  simp only [findTarget, hfind, hname, optContentTruthy, hseg, hc,
    Bool.false_eq_true, if_false, if_pos]

/-- C7, the single amended theorem: resolution returns only files with truthy
content; the first file in order satisfying any of the three path criteria
wins when it has content; and the name fallback applies first-in-order when no
file satisfies a path criterion. -/
theorem claim_c7_resolution :
    (∀ (fs : List FileNode) (ef : String) (t : FileNode),
      findTarget fs ef = some t → jsContentTruthy t.content = true) ∧
    (∀ (pre : List FileNode) (t : FileNode) (post : List FileNode) (ef : String),
      (∀ u ∈ pre, matchesAny u ef = false) → matchesAny t ef = true →
      jsContentTruthy t.content = true →
      findTarget (pre ++ t :: post) ef = some t) ∧
    (∀ (pre : List FileNode) (t : FileNode) (post : List FileNode) (ef : String),
      (∀ u ∈ pre ++ t :: post, matchesAny u ef = false) →
      (lastSegment ef.data).isEmpty = false →
      (∀ u ∈ pre, (u.name == String.mk (lastSegment ef.data)) = false) →
      (t.name == String.mk (lastSegment ef.data)) = true →
      jsContentTruthy t.content = true →
      findTarget (pre ++ t :: post) ef = some t) :=
  ⟨findTarget_content, findTarget_first_pass, findTarget_name_fallback⟩

/-- Witness for C7: the amended theorem applied to concrete one- and two-file
trees. -/
theorem claim_c7_resolution_witness :
    jsContentTruthy demoA.content = true ∧
    findTarget ([] ++ demoB :: []) "src/App.tsx" = some demoB ∧
    findTarget ([] ++ demoNode :: []) "nope/A" = some demoNode :=
  ⟨claim_c7_resolution.1 demoFiles "src/App.tsx" demoA rfl,
   claim_c7_resolution.2.1 [] demoB [] "src/App.tsx"
     (by intro u hu; cases hu) (by decide) (by decide),
   claim_c7_resolution.2.2 [] demoNode [] "nope/A"
     (by intro u hu; simp at hu; subst hu; decide)
     (by decide) (by intro u hu; cases hu) (by decide) (by decide)⟩

/-! ## C3 — consecutive candidates with the same dedup key -/

/-- Whenever a fixCodeError invocation issued the fixer request, the resulting
state records the candidate's dedup key as last triggered and has the
in-flight flag lowered again. -/
theorem fixCodeError_called_state (s : FixState) (f e : String) (r : FixerResponse)
    (h : (fixCodeError s f e r).calledFixer = true) :
    (fixCodeError s f e r).state.lastError = errKey f e ∧
    (fixCodeError s f e r).state.fixing = false := by
  by_cases hf : s.fixing = true
  · simp [fixCodeError, hf] at h
  · by_cases hk : (errKey f e == s.lastError) = true
    · simp [fixCodeError, hf, hk] at h
    · cases hft : findTarget (flattenFiles s.files) f with
      | none => simp [fixCodeError, hf, hk, hft] at h
      | some t =>
        cases r with
        | httpFail => simp [fixCodeError, hf, hk, hft]
        | ok fc =>
          by_cases happ : (!(fc == "") && !(some fc == t.content)) = true
          · simp [fixCodeError, hf, hk, hft, happ]
          · simp [fixCodeError, hf, hk, hft, happ]

/-- An invocation arriving with the in-flight flag lowered and a dedup key
equal to the last triggered one is dropped with the state unchanged. -/
theorem fixCodeError_dedup_drop (s : FixState) (f e : String) (r : FixerResponse)
    (hfix : s.fixing = false) (hkey : (errKey f e == s.lastError) = true) :
    fixCodeError s f e r = ⟨s, false, [], false⟩ := by
  have h := eq_of_beq hkey
  simp [fixCodeError, hfix, h]

/-- C3: for two consecutive candidates with the same dedup key (same file and
same first 50 characters of error text), at most one fixer request is issued;
in particular if the first invocation issued the request, the second candidate
is dropped at the dedup guard with the state unchanged. -/
theorem claim_c3_dedup (s : FixState) (f1 e1 f2 e2 : String)
    (r1 r2 : FixerResponse) (hk : errKey f1 e1 = errKey f2 e2) :
    ((fixCodeError s f1 e1 r1).calledFixer = true →
      fixCodeError (fixCodeError s f1 e1 r1).state f2 e2 r2 =
        ⟨(fixCodeError s f1 e1 r1).state, false, [], false⟩) ∧
    ((fixCodeError s f1 e1 r1).calledFixer &&
      (fixCodeError (fixCodeError s f1 e1 r1).state f2 e2 r2).calledFixer) = false := by
  have main : (fixCodeError s f1 e1 r1).calledFixer = true →
      fixCodeError (fixCodeError s f1 e1 r1).state f2 e2 r2 =
        ⟨(fixCodeError s f1 e1 r1).state, false, [], false⟩ := by
    intro hc
    obtain ⟨hl, hfix⟩ := fixCodeError_called_state s f1 e1 r1 hc
    refine fixCodeError_dedup_drop _ f2 e2 r2 hfix ?_
    rw [hl, hk]
    simp
  refine ⟨main, ?_⟩
  by_cases hc : (fixCodeError s f1 e1 r1).calledFixer = true
  · rw [main hc]
    simp
  · simp [Bool.not_eq_true] at hc
    simp [hc]

/-- Witness for C3: a concrete candidate repeated twice issues at most one
fixer request. -/
theorem claim_c3_dedup_witness :
    ((fixCodeError demoFixState "pA" "boom" (FixerResponse.ok "FIX")).calledFixer &&
      (fixCodeError (fixCodeError demoFixState "pA" "boom" (FixerResponse.ok "FIX")).state
        "pA" "boom" (FixerResponse.ok "FIX2")).calledFixer) = false :=
  (claim_c3_dedup demoFixState "pA" "boom" "pA" "boom"
    (FixerResponse.ok "FIX") (FixerResponse.ok "FIX2") rfl).2

/-! ## C5 — a fixer response identical to the current content mutates nothing -/

/-- C5: when the fixer responds with exactly the target file's current
content, the attempt aborts without mutation: no hot-patch write is issued,
the file tree and fix counter are unchanged, the invocation returns false, and
the fix log gains only the pre-request entry — no success entry. -/
theorem claim_c5_noop (s : FixState) (ef et : String) (t : FileNode) (c : String)
    (hfix : s.fixing = false)
    (hkey : (errKey ef et == s.lastError) = false)
    (ht : findTarget (flattenFiles s.files) ef = some t)
    (hc : t.content = some c) :
    (fixCodeError s ef et (FixerResponse.ok c)).writes = [] ∧
    (fixCodeError s ef et (FixerResponse.ok c)).state.files = s.files ∧
    (fixCodeError s ef et (FixerResponse.ok c)).state.fixCount = s.fixCount ∧
    (fixCodeError s ef et (FixerResponse.ok c)).returned = false ∧
    (fixCodeError s ef et (FixerResponse.ok c)).state.fixLog =
      s.fixLog ++ [fixingMsg t.path] := by
  have happ : (!(c == "") && !(some c == t.content)) = false := by
    rw [hc]
    simp
  simp [fixCodeError, hfix, hkey, ht, happ]

/-- Witness for C5: a concrete identical-content response leaves the one-file
tree untouched. -/
theorem claim_c5_noop_witness :
    (fixCodeError demoFixState "pA" "boom" (FixerResponse.ok "c")).writes = [] :=
  (claim_c5_noop demoFixState "pA" "boom" demoNode "c" rfl (by decide) rfl rfl).1

/-! ## C2 — the attempt budget can be exceeded (code bug)

Each runtime-error trigger checks the budget only when it schedules its
delayed fix call, and fixCodeError itself never rechecks it.  Sixteen distinct
runtime errors arriving inside the timer window are all scheduled while the
counter is still below the budget; the sixteen delayed invocations then all
run, driving the counter to 16 and issuing 16 fixer requests — the cap of 15
is exceeded and a fixer call happens after the counter reached the maximum. -/

set_option maxRecDepth 8000 in
set_option maxHeartbeats 3000000 in
/-- C2 evaluation at the failing input: after sixteen distinct runtime errors
scheduled before any timer fires, the attempt counter reaches 16, exceeding
MAX_FIX_ATTEMPTS = 15, and 16 fixer requests are issued. -/
theorem claim_c2_budget_overflow :
    MAX_FIX_ATTEMPTS < (runLoop overflowInit overflowEvents).1.fix.attempts ∧
    (runLoop overflowInit overflowEvents).1.fix.attempts = 16 ∧
    (runLoop overflowInit overflowEvents).2 = 16 := by decide

end PreviewSite
